import Mathlib

/-! # twilio-send-sms: a shallow embedding of `main.go`

Go strings are byte sequences and `len` counts bytes, so a Go `string` is
modelled as a list of bytes.  Go's `int` is 64 bits wide; every integer the
program computes is a difference or sum of string lengths and small
constants, so it is modelled in `Int` without wrap-around.  A run-time panic
(an out-of-range slice expression) is the `none` of an `Option`.
-/

namespace TwilioSendSMS

/-- A Go `string`: an immutable sequence of bytes. -/
abbrev GoString := List UInt8

/-- The bytes (UTF-8) of a string literal of the source. -/
def lit (s : String) : GoString := s.toList.flatMap String.utf8EncodeChar

/-- Go's builtin `len` on a string, an `int`. -/
def len (s : GoString) : Int := (s.length : Int)

/-- The slice expression `s[:hi]` on a string: a run-time panic (`none`) unless
`0 <= hi <= len(s)`. -/
def sliceTo (s : GoString) (hi : Int) : Option GoString :=
  if 0 ≤ hi ∧ hi ≤ len s then some (s.take hi.toNat) else none

/-- The value of the local `url` of `TrimBody` after its first statement
(`if len(url) > 0 { url = "\n" + url }`): the suffix appended to the body. -/
def urlSuffix (url : GoString) : GoString :=
  if len url > 0 then lit "\n" ++ url else url

/-- Function `TrimBody` (main.go, lines 34-42); `none` is a run-time panic. -/
def TrimBody (body url : GoString) : Option GoString :=
  let url := urlSuffix url
  if len (body ++ url) ≤ 160 then
    some (body ++ url)
  else
    (sliceTo body (157 - len url)).map (fun head => head ++ lit "..." ++ url)

/-! ## `strings.TrimSpace` (Go standard library) -/

/-- The code points with the Unicode property White_Space, the ones
`unicode.IsSpace` accepts: tab, line feed, vertical tab, form feed, carriage
return, space, U+0085, U+00A0, U+1680, U+2000..U+200A, U+2028, U+2029,
U+202F, U+205F, U+3000. -/
def whiteSpace : List Nat :=
  [0x09, 0x0A, 0x0B, 0x0C, 0x0D, 0x20, 0x85, 0xA0, 0x1680,
   0x2000, 0x2001, 0x2002, 0x2003, 0x2004, 0x2005, 0x2006, 0x2007, 0x2008, 0x2009, 0x200A,
   0x2028, 0x2029, 0x202F, 0x205F, 0x3000]

/-- The UTF-8 encodings of the white-space code points.  A Go string starts
(ends) with a white-space rune exactly when it starts (ends) with one of
these byte sequences: the decoder accepts only the shortest encoding of a
code point, and an undecodable byte is U+FFFD, which is not white space. -/
def spaceEncodings : List GoString :=
  whiteSpace.map (fun n => String.utf8EncodeChar (Char.ofNat n))

/-- The encoding of the white-space rune the string starts with, if any. -/
def leadingSpace (s : GoString) : Option GoString :=
  spaceEncodings.find? (fun w => w.isPrefixOf s)

/-- The encoding of the white-space rune the string ends with, if any. -/
def trailingSpace (s : GoString) : Option GoString :=
  spaceEncodings.find? (fun w => w.isSuffixOf s)

/-- Removes leading white-space runes, at most `fuel` of them. -/
def trimLeft : Nat → GoString → GoString
  | 0, s => s
  | fuel + 1, s =>
    match leadingSpace s with
    | none => s
    | some w => trimLeft fuel (s.drop w.length)

/-- Removes trailing white-space runes, at most `fuel` of them. -/
def trimRight : Nat → GoString → GoString
  | 0, s => s
  | fuel + 1, s =>
    match trailingSpace s with
    | none => s
    | some w => trimRight fuel (s.take (s.length - w.length))

/-- Library model of `strings.TrimSpace`, which is not part of the repository:
"TrimSpace returns a slice of the string s, with all leading and trailing
white space removed, as defined by Unicode."  Each removed rune has at least
one byte, so a fuel of the length of the string removes them all. -/
def TrimSpace (s : GoString) : GoString :=
  let t := trimLeft s.length s
  trimRight t.length t

/-- The string starts with a white-space rune. -/
def HasLeadingSpace (s : GoString) : Prop := ∃ w ∈ spaceEncodings, w <+: s

/-- The string ends with a white-space rune. -/
def HasTrailingSpace (s : GoString) : Prop := ∃ w ∈ spaceEncodings, w <:+ s

/-! ## Values of the run-time library -/

/-- A Go `error`: `nil`, or a value whose `Error()` text is `msg`. -/
inductive GoError where
  | nil
  | err (msg : GoString)
deriving DecidableEq, Repr

/-- What the verb `%v` prints for an `error` operand: its `Error()` text, and
`<nil>` for a nil operand. -/
def GoError.verbV : GoError → GoString
  | .nil => lit "<nil>"
  | .err msg => msg

/-- Call `fmt.Errorf(format, e)` for a format that is the literal text `text`
followed by the verb `%v`: always a non-nil error. -/
def Errorf (text : String) (e : GoError) : GoError :=
  .err (lit text ++ e.verbV)

/-- What the verb `%d` prints for an `int`: its decimal digits, with a minus
sign when negative. -/
def verbD : Int → GoString
  | Int.ofNat n => lit (Nat.repr n)
  | Int.negSucc n => lit "-" ++ lit (Nat.repr (n + 1))

/-- A value `encoding/json` stores in an `interface{}`: `nil` for JSON null,
`bool`, `float64` (kept as the text of the number), `string`,
`[]interface{}` and `map[string]interface{}`. -/
inductive JSONValue where
  | null
  | bool (b : Bool)
  | number (text : GoString)
  | string (s : GoString)
  | array (items : List JSONValue)
  | object (fields : List (GoString × JSONValue))

/-- A decoded `map[string]interface{}`: a finite map as an association list. -/
abbrev JSONObject := List (GoString × JSONValue)

/-- The index expression `respBody[key]` on a `map[string]interface{}`: the
zero value `nil` when the key is absent (and on a nil map). -/
def JSONObject.index (m : JSONObject) (key : GoString) : JSONValue :=
  match m.lookup key with
  | some v => v
  | none => .null

/-- A `url.Values`, that is a `map[string][]string`, as an association list
with one entry for each key. -/
abbrev Values := List (GoString × List GoString)

/-- Method `url.Values.Set`: sets the key to the single value, replacing any
existing values. -/
def Values.Set (v : Values) (key value : GoString) : Values :=
  (key, [value]) :: v.filter (fun e => e.1 != key)

/-- Method `url.Values.Get`: the first value of the key, the empty string if there are
none. -/
def Values.Get (v : Values) (key : GoString) : GoString :=
  match v.lookup key with
  | some (x :: _) => x
  | _ => []

/-- The fields of an `http.Request` the program sets. -/
structure Request where
  Method : GoString
  URL : GoString
  Body : GoString
  BasicAuth : Option (GoString × GoString)
  Header : List (GoString × GoString)
deriving DecidableEq

/-- Method `(*http.Request).SetBasicAuth`. -/
def Request.SetBasicAuth (r : Request) (username password : GoString) : Request :=
  { r with BasicAuth := some (username, password) }

/-- Method `http.Header.Add` on the header of the request: appends the value. -/
def Request.HeaderAdd (r : Request) (key value : GoString) : Request :=
  { r with Header := r.Header ++ [(key, value)] }

/-- The fields of an `http.Response` the program reads: the status code and
the bytes the body stream delivers. -/
structure Response where
  StatusCode : Int
  Body : GoString
deriving DecidableEq

/-- The standard library and the outside world, as far as the program uses
them.  An `Except` carries the `Error()` text of the error the call returns. -/
structure World where
  /-- Call `fmt.Sprintf(format, arg)` with one string operand. -/
  Sprintf : GoString → GoString → GoString
  /-- Call `http.Get(url)` followed by reading the response body to its end
  (`io.Copy`): the transport error, or the read error, or the text read. -/
  Get : GoString → Except GoString (Except GoString GoString)
  /-- Method `url.Values.Encode`. -/
  Encode : Values → GoString
  /-- Call `http.NewRequest(method, url, body)`. -/
  NewRequest : GoString → GoString → GoString → Except GoString Request
  /-- Method `(*http.Client).Do`. -/
  Do : Request → Except GoString Response
  /-- Decoding the whole response body into a `map[string]interface{}` with
  `json.NewDecoder(body).Decode`. -/
  Decode : GoString → Except GoString JSONObject
  /-- What the verb `%s` prints for an operand that is neither a string nor
  nil. -/
  verbSOther : JSONValue → GoString
  /-- Reading standard input to its end (`io.Copy(buf, os.Stdin)`). -/
  Stdin : Except GoString GoString

/-- What the verb `%s` prints for an `interface{}` operand: a string as it is,
and the bad-verb text for nil. -/
def verbS (w : World) : JSONValue → GoString
  | .string s => s
  | .null => lit "%!s(<nil>)"
  | v => w.verbSOther v

/-! ## The program -/

/-- Constant `APIURL` (main.go, line 16). -/
def APIURL : GoString := lit "https://api.twilio.com/2010-04-01/Accounts/%s/Messages.json"

/-- Function `Shorten` (main.go, lines 45-63): the pair of results. -/
def Shorten (w : World) (shortenURL url : GoString) : GoString × GoError :=
  match w.Get (w.Sprintf shortenURL url) with
  | .error e => (lit "", Errorf "Unable to get shortened URL: " (.err e))
  | .ok (.error e) => (lit "", Errorf "Unable read response body: " (.err e))
  | .ok (.ok text) =>
    let short := TrimSpace text
    if short = lit "" then
      (lit "", Errorf "Unable read response body: " .nil)
    else
      (short, .nil)

/-- The local `body` of `Send` after lines 68-70 (`if len(body) > 160
{ body = body[:160] }`). -/
def SendBody (body : GoString) : Option GoString :=
  if len body > 160 then sliceTo body 160 else some body

/-- The form `data` of `Send` after lines 73-76. -/
def SendData (from_ to_ body : GoString) : Values :=
  let data : Values := []
  let data := Values.Set data (lit "From") from_
  let data := Values.Set data (lit "To") to_
  Values.Set data (lit "Body") body

/-- The request of `Send` after lines 85-87. -/
def SendRequest (req : Request) (accountSID authToken : GoString) : Request :=
  ((req.SetBasicAuth accountSID authToken).HeaderAdd (lit "Content-Type")
    (lit "application/x-www-form-urlencoded")).HeaderAdd (lit "Accept") (lit "application/json")

/-- Function `Send` (main.go, lines 66-112); `none` is a run-time panic. -/
def Send (w : World) (from_ to_ body accountSID authToken : GoString) : Option GoError :=
  match SendBody body with
  | none => none
  | some body =>
    let data := SendData from_ to_ body
    let reader := w.Encode data
    match w.NewRequest (lit "POST") (w.Sprintf APIURL accountSID) reader with
    | .error e => some (Errorf "Unable to create request: " (.err e))
    | .ok req =>
      let req := SendRequest req accountSID authToken
      match w.Do req with
      | .error e => some (Errorf "Unable to complete request: " (.err e))
      | .ok resp =>
        if resp.StatusCode ≥ 200 ∧ resp.StatusCode < 300 then
          some .nil
        else
          match w.Decode resp.Body with
          | .error e => some (Errorf "Unable to decode response body: " (.err e))
          | .ok respBody =>
            some (.err (lit "HTTP error " ++ verbD resp.StatusCode ++ lit ", "
              ++ verbS w (respBody.index (lit "message")) ++ lit " "
              ++ verbS w (respBody.index (lit "more_info"))))

/-- The six settings of the program after `flag.Parse()` (main.go, lines
18-23): the value of the flag, or of the environment variable when the flag
is not given. -/
structure Config where
  fromNumber : GoString
  toNumber : GoString
  accountSID : GoString
  authToken : GoString
  shortenURL : GoString
  smsURL : GoString
deriving DecidableEq

/-- What a run of `main` does that is visible from outside, in order. -/
inductive Event where
  /-- Call `flag.Usage()`. -/
  | Usage
  /-- Call `fmt.Println`, with the line it prints. -/
  | Println (line : GoString)
  /-- Reading standard input to its end. -/
  | ReadStdin
  /-- A call of `Shorten`, with its arguments. -/
  | Shorten (shortenURL url : GoString)
  /-- A call of `Send`, with its arguments. -/
  | Send (from_ to_ body accountSID authToken : GoString)
deriving DecidableEq

/-- The event is a call of `Shorten` or of `Send`, the two functions of the
program that use the network. -/
def Event.isNetworkCall : Event → Bool
  | .Shorten _ _ => true
  | .Send _ _ _ _ _ => true
  | _ => false

/-- A finished run of the program: what it did and its exit status. -/
structure Run where
  events : List Event
  exitCode : Int
deriving DecidableEq

/-- Lines 168-172 of `main`, after the events `done`.  An unrecovered panic
ends a Go program with exit status 2. -/
def mainSend (w : World) (c : Config) (buf short : GoString) (done : List Event) : Run :=
  match TrimBody buf short with
  | none => ⟨done, 2⟩
  | some body =>
    let done := done ++ [.Send c.fromNumber c.toNumber body c.accountSID c.authToken]
    match Send w c.fromNumber c.toNumber body c.accountSID c.authToken with
    | none => ⟨done, 2⟩
    | some .nil => ⟨done, 0⟩
    | some (.err msg) => ⟨done ++ [.Println (lit "Unable to send SMS: " ++ msg)], 1⟩

/-- Function `main` (main.go, lines 114-173), after `flag.Parse()`. -/
def main (w : World) (c : Config) : Run :=
  if c.fromNumber = lit "" then
    ⟨[.Usage, .Println (lit "\nError: -from flag or SMS_FROM environment variable must be supplied")], 1⟩
  else if c.toNumber = lit "" then
    ⟨[.Usage, .Println (lit "\nError: -to flag or SMS_TO environment variable must be supplied")], 1⟩
  else if c.accountSID = lit "" then
    ⟨[.Usage, .Println (lit "\nError: -sid flag or SMS_ACCOUNTSID environment variable must be supplied")], 1⟩
  else if c.authToken = lit "" then
    ⟨[.Usage, .Println (lit "\nError: -token flag or SMS_AUTHTOKEN environment variable must be supplied")], 1⟩
  else
    match w.Stdin with
    | .error e => ⟨[.ReadStdin, .Println (lit "Unable to read from stdin: " ++ e)], 1⟩
    | .ok buf =>
      if c.smsURL ≠ lit "" then
        if c.shortenURL = lit "" then
          ⟨[.ReadStdin, .Usage, .Println
            (lit "\nIf -url (SMS_URL) is given, -shortener (SMS_SHORTENER) must also be given")], 1⟩
        else
          match Shorten w c.shortenURL c.smsURL with
          | (_, .err msg) =>
            ⟨[.ReadStdin, .Shorten c.shortenURL c.smsURL,
              .Println (lit "Unable to get shortened URL: " ++ msg)], 1⟩
          | (short, .nil) =>
            mainSend w c buf short [.ReadStdin, .Shorten c.shortenURL c.smsURL]
      else
        mainSend w c buf (lit "") [.ReadStdin]

/-! ## A sample world -/

/-- Replaces the first `%s` of the format by the operand: what `fmt.Sprintf`
does for a format with one `%s` and no other verb. -/
def substS : GoString → GoString → GoString
  | 37 :: 115 :: rest, arg => arg ++ rest
  | b :: rest, arg => b :: substS rest arg
  | [], _ => []

/-- Joins the entries of a form as `key=value` with `&` in between, without
escaping. -/
def joinForm : Values → GoString
  | [] => []
  | (key, vals) :: rest =>
    key ++ lit "=" ++ vals.flatten ++ (if rest = [] then [] else lit "&" ++ joinForm rest)

/-- A world in which the shortener answers `page`, the messaging endpoint
answers `resp`, decoding the body of that answer gives `decoded`, and standard
input holds `input`. -/
def sampleWorld (page : GoString) (resp : Response) (decoded : Except GoString JSONObject)
    (input : GoString) : World where
  Sprintf := substS
  Get := fun _ => .ok (.ok page)
  Encode := joinForm
  NewRequest := fun method url body => .ok ⟨method, url, body, none, []⟩
  Do := fun _ => .ok resp
  Decode := fun _ => decoded
  verbSOther := fun _ => lit "%!s(?)"
  Stdin := .ok input

/-- The error object of the messaging provider the specification quotes. -/
def sampleErrorObject : JSONObject :=
  [(lit "message", .string (lit "Invalid \x27To\x27 Phone Number")),
   (lit "more_info", .string (lit "https://provider/errors/21211"))]

/-! ## Lemmas on strings -/

theorem lit_newline : lit "\n" = [10] := by decide

theorem lit_ellipsis : lit "..." = [46, 46, 46] := by decide

theorem lit_empty : lit "" = [] := by decide

theorem len_append (s t : GoString) : len (s ++ t) = len s + len t := by
  simp [len]

theorem len_nonneg (s : GoString) : 0 ≤ len s := by
  simp [len]

theorem len_replicate (n : Nat) (b : UInt8) : len (List.replicate n b) = n := by
  simp [len]

theorem urlSuffix_nil : urlSuffix [] = [] := by
  simp [urlSuffix, len]

theorem urlSuffix_of_ne_nil {url : GoString} (h : url ≠ []) : urlSuffix url = 10 :: url := by
  have hpos : 0 < url.length := List.length_pos.mpr h
  simp [urlSuffix, len, lit_newline, hpos]

/-- The suffix of the code is the one the specification describes. -/
theorem urlSuffix_eq (url : GoString) :
    urlSuffix url = if url = lit "" then lit "" else lit "\n" ++ url := by
  by_cases h : url = []
  · subst h
    simp [urlSuffix_nil, lit_empty]
  · simp [urlSuffix_of_ne_nil h, lit_empty, lit_newline, h]

theorem sliceTo_eq_some {s : GoString} {hi : Int} (h0 : 0 ≤ hi) (h1 : hi ≤ len s) :
    sliceTo s hi = some (s.take hi.toNat) := by
  simp [sliceTo, h0, h1]

theorem sliceTo_eq_none_iff (s : GoString) (hi : Int) :
    sliceTo s hi = none ↔ hi < 0 ∨ len s < hi := by
  unfold sliceTo
  split
  · simp; omega
  · simp; omega

/-- When `TrimBody` panics: exactly when it takes the truncation branch with a
suffix of more than 157 bytes. -/
theorem TrimBody_eq_none_iff (body url : GoString) :
    TrimBody body url = none ↔
      160 < len body + len (urlSuffix url) ∧ 157 < len (urlSuffix url) := by
  unfold TrimBody
  simp only [len_append]
  split
  · simp; omega
  · rw [Option.map_eq_none', sliceTo_eq_none_iff]
    have := len_nonneg body
    constructor
    · intro h; omega
    · intro h; omega

theorem TrimBody_of_fits {body url : GoString} (h : len body + len (urlSuffix url) ≤ 160) :
    TrimBody body url = some (body ++ urlSuffix url) := by
  simp [TrimBody, len_append, h]

theorem TrimBody_of_long {body url : GoString} (h1 : 160 < len body + len (urlSuffix url))
    (h2 : len (urlSuffix url) ≤ 157) :
    TrimBody body url =
      some (body.take (157 - len (urlSuffix url)).toNat ++ lit "..." ++ urlSuffix url) := by
  have hlt : ¬ len body + len (urlSuffix url) ≤ 160 := by omega
  have hs := @sliceTo_eq_some body (157 - len (urlSuffix url)) (by omega) (by omega)
  simp [TrimBody, len_append, hlt, hs]

/-- Whatever `TrimBody` returns has at most 160 bytes. -/
theorem TrimBody_length_le {body url r : GoString} (h : TrimBody body url = some r) :
    len r ≤ 160 := by
  by_cases hfit : len body + len (urlSuffix url) ≤ 160
  · rw [TrimBody_of_fits hfit] at h
    cases h
    simpa [len_append] using hfit
  · by_cases hsfx : len (urlSuffix url) ≤ 157
    · rw [TrimBody_of_long (by omega) hsfx] at h
      cases h
      simp only [len, List.length_append, List.length_take, lit_ellipsis] at *
      simp
      omega
    · have hnone := (TrimBody_eq_none_iff body url).mpr ⟨by omega, by omega⟩
      rw [hnone] at h
      cases h

theorem SendBody_eq (body : GoString) : SendBody body = some (body.take 160) := by
  unfold SendBody
  split
  · next h => exact sliceTo_eq_some (by decide) (by omega)
  · next h =>
    have hle : body.length ≤ 160 := by
      simp only [len] at h
      omega
    rw [List.take_of_length_le hle]

theorem Values.Get_Set_self (v : Values) (key value : GoString) :
    Values.Get (Values.Set v key value) key = value := by
  simp [Values.Get, Values.Set, List.lookup]

theorem Values.Get_Set_of_ne (v : Values) {key other : GoString} (value : GoString)
    (h : other ≠ key) : Values.Get (Values.Set v key value) other = Values.Get v other := by
  have hb : (other == key) = false := by simpa using h
  have hl : ∀ l : Values, (l.filter (fun e => e.1 != key)).lookup other = l.lookup other := by
    intro l
    induction l with
    | nil => rfl
    | cons e l ih =>
      obtain ⟨k, x⟩ := e
      by_cases hk : k = key
      · subst hk
        simp [List.filter, List.lookup, hb, ih]
      · have hne : (k != key) = true := by simpa using hk
        simp only [List.filter, hne, List.lookup]
        rw [ih]
  simp only [Values.Get, Values.Set, List.lookup, hb, hl]

/-! ## The claims on `TrimBody` -/

/-- C1 (code defect).  `TrimBody` returns no string at all for the body
`0123456789` and a url of 160 bytes `x`: the suffix has 161 bytes, the
truncation branch evaluates `body[:157-161]` and the slice expression panics,
so in particular no string of at most 160 bytes is returned. -/
theorem TrimBody_long_url_no_result :
    TrimBody (lit "0123456789") (List.replicate 160 120) = none ∧
      ¬ ∃ r, TrimBody (lit "0123456789") (List.replicate 160 120) = some r ∧ len r ≤ 160 := by
  have hnone : TrimBody (lit "0123456789") (List.replicate 160 120) = none := by
    rw [TrimBody_eq_none_iff, urlSuffix_of_ne_nil (by simp)]
    simp [len, lit]
    decide
  refine ⟨hnone, ?_⟩
  rintro ⟨r, hr, -⟩
  rw [hnone] at hr
  cases hr

/-- C2 (code defect).  With a body of 3 bytes and a url of 157 bytes the
truncation branch is taken (3 + 158 > 160), the upper bound of the slice
`body[:157-len(suffix)]` is -1, which is out of bounds, and `TrimBody` panics
instead of returning a value. -/
theorem TrimBody_slice_out_of_bounds :
    160 < len (List.replicate 3 97 ++ urlSuffix (List.replicate 157 97)) ∧
      157 - len (urlSuffix (List.replicate 157 97)) = -1 ∧
      sliceTo (List.replicate 3 97) (157 - len (urlSuffix (List.replicate 157 97))) = none ∧
      TrimBody (List.replicate 3 97) (List.replicate 157 97) = none := by
  have hs : len (urlSuffix (List.replicate 157 97)) = 158 := by
    rw [urlSuffix_of_ne_nil (by simp)]
    simp [len]
  refine ⟨?_, ?_, ?_, ?_⟩
  · rw [len_append, hs]
    simp [len]
  · rw [hs]
    rfl
  · rw [sliceTo_eq_none_iff, hs]
    left
    decide
  · rw [TrimBody_eq_none_iff, hs]
    simp [len]

/-- C3.  Identity case of `TrimBody`: with `suffix` the newline followed by
`url` when `url` is non-empty and empty otherwise, whenever
`len(body) + len(suffix) <= 160` the result is `body ++ suffix`, with nothing
truncated and no ellipsis added. -/
theorem TrimBody_identity (body url suffix : GoString)
    (hs : suffix = if url = lit "" then lit "" else lit "\n" ++ url)
    (h : len body + len suffix ≤ 160) :
    TrimBody body url = some (body ++ suffix) := by
  rw [← urlSuffix_eq] at hs
  subst hs
  exact TrimBody_of_fits h

/-- The identity case at the inputs the specification names: empty body and url; 160 bytes
`a` with an empty url; 100 bytes `a` with the url `http://x.co/abc`. -/
theorem TrimBody_identity_witness :
    TrimBody (lit "") (lit "") = some (lit "") ∧
      TrimBody (List.replicate 160 97) (lit "") = some (List.replicate 160 97) ∧
      TrimBody (List.replicate 100 97) (lit "http://x.co/abc") =
        some (List.replicate 100 97 ++ lit "\n" ++ lit "http://x.co/abc") := by
  refine ⟨?_, ?_, ?_⟩
  · exact TrimBody_identity (lit "") (lit "") (lit "") (by decide) (by decide)
  · have h := TrimBody_identity (List.replicate 160 97) (lit "") (lit "") (by decide)
      (by simp [len, lit_empty])
    simpa [lit_empty] using h
  · have h := TrimBody_identity (List.replicate 100 97) (lit "http://x.co/abc")
      (lit "\n" ++ lit "http://x.co/abc") (by decide) (by simp [len]; decide)
    simpa using h

/-- C4.  Truncation case of `TrimBody`: with `suffix` as in C3, whenever
`len(body) + len(suffix) > 160` and `len(suffix) <= 157` the result is the
first `157 - len(suffix)` bytes of `body`, then `...`, then `suffix`, and it
has exactly 160 bytes. -/
theorem TrimBody_truncation (body url suffix : GoString)
    (hs : suffix = if url = lit "" then lit "" else lit "\n" ++ url)
    (h1 : 160 < len body + len suffix) (h2 : len suffix ≤ 157) :
    TrimBody body url = some (body.take (157 - len suffix).toNat ++ lit "..." ++ suffix) ∧
      len (body.take (157 - len suffix).toNat ++ lit "..." ++ suffix) = 160 := by
  rw [← urlSuffix_eq] at hs
  subst hs
  refine ⟨TrimBody_of_long h1 h2, ?_⟩
  simp only [len, List.length_append, List.length_take, lit_ellipsis] at *
  simp
  omega

/-- The truncation case at the input the specification names: 161 bytes `a` with an empty url
give 157 bytes `a` followed by `...`, 160 bytes in all. -/
theorem TrimBody_truncation_witness :
    TrimBody (List.replicate 161 97) (lit "") = some (List.replicate 157 97 ++ lit "...") ∧
      len (List.replicate 157 97 ++ lit "...") = 160 := by
  have h := TrimBody_truncation (List.replicate 161 97) (lit "") (lit "") (by decide)
    (by simp [len, lit_empty]) (by simp [len, lit_empty])
  simpa [len, lit_empty, List.take_replicate] using h

/-! ## The claims on `Send` and on the whole pipeline -/

/-- What `Send` does with a body: it runs lines 73-110 on the form whose
`Body` is the first 160 bytes of the body. -/
theorem Send_eq (w : World) (from_ to_ body accountSID authToken : GoString) :
    Send w from_ to_ body accountSID authToken =
      match w.NewRequest (lit "POST") (w.Sprintf APIURL accountSID)
          (w.Encode (SendData from_ to_ (body.take 160))) with
      | .error e => some (Errorf "Unable to create request: " (.err e))
      | .ok req =>
        match w.Do (SendRequest req accountSID authToken) with
        | .error e => some (Errorf "Unable to complete request: " (.err e))
        | .ok resp =>
          if resp.StatusCode ≥ 200 ∧ resp.StatusCode < 300 then
            some .nil
          else
            match w.Decode resp.Body with
            | .error e => some (Errorf "Unable to decode response body: " (.err e))
            | .ok respBody =>
              some (.err (lit "HTTP error " ++ verbD resp.StatusCode ++ lit ", "
                ++ verbS w (respBody.index (lit "message")) ++ lit " "
                ++ verbS w (respBody.index (lit "more_info")))) := by
  unfold Send
  simp only [SendBody_eq]

/-- The guard of line 68 keeps the slice of line 69 in range: `Send` never
panics. -/
theorem Send_returns (w : World) (from_ to_ body accountSID authToken : GoString) :
    ∃ result, Send w from_ to_ body accountSID authToken = some result := by
  rw [Send_eq]
  split
  · exact ⟨_, rfl⟩
  · split
    · exact ⟨_, rfl⟩
    · split
      · exact ⟨_, rfl⟩
      · split
        · exact ⟨_, rfl⟩
        · exact ⟨_, rfl⟩

/-- C5.  The link is never dropped end to end.  When `TrimBody` returns `r` for
the body and a non-empty url: (1) the truncation of `Send` leaves `r` as it
is; (2) the `Body` field of the form `Send` builds for `r` is `r`; (3) `Send`
called with `r` hands `http.NewRequest` the encoding of that very form;
(4) `r` ends with the newline and the whole url; (5) `r` is a leading part of
`body` followed by the suffix, with or without the ellipsis in between, so
only bytes of `body` were removed; (6) in a run of `main` with the required
settings, a url and a shortener given, `body` on standard input and `url`
the answer of `Shorten`, the only call of `Send` is the one with body `r`,
and the exit status is 0 exactly when that call returns nil. -/
theorem link_never_dropped (w : World) (c : Config) (body url r : GoString)
    (hurl : url ≠ lit "") (h : TrimBody body url = some r) :
    SendBody r = some r ∧
      Values.Get (SendData c.fromNumber c.toNumber r) (lit "Body") = r ∧
      (∀ e, w.NewRequest (lit "POST") (w.Sprintf APIURL c.accountSID)
          (w.Encode (SendData c.fromNumber c.toNumber r)) = .error e →
        Send w c.fromNumber c.toNumber r c.accountSID c.authToken =
          some (.err (lit "Unable to create request: " ++ e))) ∧
      (lit "\n" ++ url) <:+ r ∧
      (∃ kept, kept <+: body ∧
        (r = kept ++ (lit "\n" ++ url) ∨ r = kept ++ lit "..." ++ (lit "\n" ++ url))) ∧
      (c.fromNumber ≠ lit "" → c.toNumber ≠ lit "" → c.accountSID ≠ lit "" →
        c.authToken ≠ lit "" → c.smsURL ≠ lit "" → c.shortenURL ≠ lit "" →
        w.Stdin = .ok body → Shorten w c.shortenURL c.smsURL = (url, .nil) →
        (∃ rest, (main w c).events =
            [.ReadStdin, .Shorten c.shortenURL c.smsURL,
              .Send c.fromNumber c.toNumber r c.accountSID c.authToken] ++ rest ∧
          (rest = [] ∨ ∃ line, rest = [.Println line])) ∧
        ((main w c).exitCode = 0 ↔
          Send w c.fromNumber c.toNumber r c.accountSID c.authToken = some .nil)) := by
  have hlen : r.length ≤ 160 := by
    have := TrimBody_length_le h
    simpa [len] using this
  have htake : r.take 160 = r := List.take_of_length_le hlen
  have hsfx : urlSuffix url = lit "\n" ++ url := by
    rw [urlSuffix_of_ne_nil (by simpa [lit_empty] using hurl), lit_newline]
    rfl
  have hshape : (lit "\n" ++ url) <:+ r ∧ ∃ kept, kept <+: body ∧
      (r = kept ++ (lit "\n" ++ url) ∨ r = kept ++ lit "..." ++ (lit "\n" ++ url)) := by
    by_cases hfit : len body + len (urlSuffix url) ≤ 160
    · have h2 := h
      rw [TrimBody_of_fits hfit, hsfx] at h2
      cases h2
      exact ⟨List.suffix_append _ _, body, List.prefix_refl _, Or.inl rfl⟩
    · by_cases hshort : len (urlSuffix url) ≤ 157
      · have hlong := @TrimBody_of_long body url (by omega) hshort
        have h2 := h
        rw [hlong, hsfx, Option.some.injEq] at h2
        subst h2
        exact ⟨List.suffix_append _ _, _, List.take_prefix _ _, Or.inr rfl⟩
      · have hnone := (TrimBody_eq_none_iff body url).mpr ⟨by omega, by omega⟩
        rw [hnone] at h
        cases h
  refine ⟨?_, ?_, ?_, hshape.1, hshape.2, ?_⟩
  · rw [SendBody_eq, htake]
  · exact Values.Get_Set_self _ _ _
  · intro e he
    unfold Send
    simp only [SendBody_eq, htake, he]
    rfl
  · intro h1 h2 h3 h4 h5 h6 hin hsh
    obtain ⟨result, hres⟩ := Send_returns w c.fromNumber c.toNumber r c.accountSID c.authToken
    have hmain : main w c = mainSend w c body url
        [.ReadStdin, .Shorten c.shortenURL c.smsURL] := by
      simp only [main, if_neg h1, if_neg h2, if_neg h3, if_neg h4, hin, h5, h6, hsh,
        ne_eq, not_false_eq_true, if_true, if_false]
    rw [hmain]
    simp only [mainSend, h, hres]
    cases result with
    | nil => exact ⟨⟨[], by simp, Or.inl rfl⟩, by simp⟩
    | err msg => exact ⟨⟨[.Println (lit "Unable to send SMS: " ++ msg)], by simp,
        Or.inr ⟨_, rfl⟩⟩, by simp⟩

/-- The link is kept in a run of `main` with 200 bytes `a` on standard input
and a shortener that answers `http://x.co/abc`: the call of `Send` carries
the truncated body, which ends with the newline and the whole url. -/
theorem link_never_dropped_witness :
    ∃ r, TrimBody (List.replicate 200 97) (lit "http://x.co/abc") = some r ∧
      SendBody r = some r ∧ (lit "\n" ++ lit "http://x.co/abc") <:+ r ∧
      Event.Send (lit "+15550001") (lit "+15550002") r (lit "AC1") (lit "secret") ∈
        (main (sampleWorld (lit " http://x.co/abc\n") ⟨201, lit ""⟩ (.ok [])
            (List.replicate 200 97))
          ⟨lit "+15550001", lit "+15550002", lit "AC1", lit "secret",
            lit "https://short.example/?u=%s", lit "https://example.com/a/long/path"⟩).events := by
  have h : TrimBody (List.replicate 200 97) (lit "http://x.co/abc") =
      some ((List.replicate 200 97).take (157 - len (urlSuffix (lit "http://x.co/abc"))).toNat
        ++ lit "..." ++ urlSuffix (lit "http://x.co/abc")) :=
    TrimBody_of_long (by rw [len_replicate]; decide) (by decide)
  have hc := link_never_dropped
    (sampleWorld (lit " http://x.co/abc\n") ⟨201, lit ""⟩ (.ok []) (List.replicate 200 97))
    ⟨lit "+15550001", lit "+15550002", lit "AC1", lit "secret",
      lit "https://short.example/?u=%s", lit "https://example.com/a/long/path"⟩
    _ _ _ (by decide) h
  obtain ⟨rest, hev, -⟩ := (hc.2.2.2.2.2 (by decide) (by decide) (by decide) (by decide)
    (by decide) (by decide) rfl (by decide)).1
  refine ⟨_, h, hc.1, hc.2.2.2.1, ?_⟩
  rw [hev]
  simp

/-- C6.  The defensive truncation of `Send`.  The body `Send` goes on with is
`body` itself when `len(body) <= 160` and the first 160 bytes of `body`
otherwise, so it has at most 160 bytes and is a leading part of the input;
in the form `Send` builds, `Body` is that value and `From` and `To` are the
two arguments unchanged.  `Send` itself is tied to that form: it never
panics, a call with `body` does what a call with the truncated body does,
`http.NewRequest` receives the encoding of exactly that form, and the
request handed to the client is the one built from it. -/
theorem Send_body_truncation (w : World) (from_ to_ body accountSID authToken : GoString) :
    ∃ sent, SendBody body = some sent ∧
      sent = (if len body ≤ 160 then body else body.take 160) ∧
      len sent ≤ 160 ∧ sent <+: body ∧
      Values.Get (SendData from_ to_ sent) (lit "Body") = sent ∧
      Values.Get (SendData from_ to_ sent) (lit "From") = from_ ∧
      Values.Get (SendData from_ to_ sent) (lit "To") = to_ ∧
      (∃ result, Send w from_ to_ body accountSID authToken = some result) ∧
      Send w from_ to_ body accountSID authToken =
        Send w from_ to_ sent accountSID authToken ∧
      (∀ e, w.NewRequest (lit "POST") (w.Sprintf APIURL accountSID)
          (w.Encode (SendData from_ to_ sent)) = .error e →
        Send w from_ to_ body accountSID authToken =
          some (.err (lit "Unable to create request: " ++ e))) ∧
      (∀ req e, w.NewRequest (lit "POST") (w.Sprintf APIURL accountSID)
          (w.Encode (SendData from_ to_ sent)) = .ok req →
        w.Do (SendRequest req accountSID authToken) = .error e →
        Send w from_ to_ body accountSID authToken =
          some (.err (lit "Unable to complete request: " ++ e))) := by
  refine ⟨body.take 160, SendBody_eq body, ?_, ?_, List.take_prefix _ _, ?_, ?_, ?_,
    Send_returns w from_ to_ body accountSID authToken, ?_, ?_, ?_⟩
  · split
    · next h =>
      have hle : body.length ≤ 160 := by
        simp only [len] at h
        omega
      rw [List.take_of_length_le hle]
    · rfl
  · simp [len]
  · exact Values.Get_Set_self _ _ _
  · unfold SendData
    rw [Values.Get_Set_of_ne _ _ (by decide), Values.Get_Set_of_ne _ _ (by decide),
      Values.Get_Set_self]
  · unfold SendData
    rw [Values.Get_Set_of_ne _ _ (by decide), Values.Get_Set_self]
  · unfold Send
    simp only [SendBody_eq, List.take_take, Nat.min_self]
  · intro e he
    unfold Send
    simp only [SendBody_eq, he]
    rfl
  · intro req e hreq hdo
    unfold Send
    simp only [SendBody_eq, hreq, hdo]
    rfl

/-- The truncation of `Send` counts bytes: of 159 bytes `a`, the two bytes of
U+00E9 and `zz`, the body sent is the 159 bytes `a` and the first byte of
the rune, and `Send` does with the whole body what it does with those 160
bytes. -/
theorem Send_body_truncation_witness :
    SendBody (List.replicate 159 97 ++ [0xC3, 0xA9, 122, 122]) =
        some (List.replicate 159 97 ++ [0xC3]) ∧
      Send (sampleWorld (lit "") ⟨201, lit ""⟩ (.ok []) (lit "")) (lit "+15550001")
          (lit "+15550002") (List.replicate 159 97 ++ [0xC3, 0xA9, 122, 122]) (lit "AC1")
          (lit "secret") =
        Send (sampleWorld (lit "") ⟨201, lit ""⟩ (.ok []) (lit "")) (lit "+15550001")
          (lit "+15550002") (List.replicate 159 97 ++ [0xC3]) (lit "AC1") (lit "secret") := by
  obtain ⟨sent, h1, h2, -, -, -, -, -, -, h9, -⟩ := Send_body_truncation
    (sampleWorld (lit "") ⟨201, lit ""⟩ (.ok []) (lit "")) (lit "+15550001") (lit "+15550002")
    (List.replicate 159 97 ++ [0xC3, 0xA9, 122, 122]) (lit "AC1") (lit "secret")
  have hsent : sent = List.replicate 159 97 ++ [0xC3] := by
    have hlong : ¬ len (List.replicate 159 97 ++ [0xC3, 0xA9, 122, 122]) ≤ 160 := by
      rw [len_append, len_replicate]
      decide
    rw [h2, if_neg hlong, List.take_append_eq_append_take, List.take_replicate,
      List.length_replicate]
    rfl
  rw [hsent] at h1 h9
  exact ⟨h1, h9⟩

/-- What `Send` returns once the request is built and answered. -/
theorem Send_of_response (w : World) (from_ to_ body accountSID authToken : GoString)
    (req : Request) (resp : Response)
    (hreq : w.NewRequest (lit "POST") (w.Sprintf APIURL accountSID)
      (w.Encode (SendData from_ to_ (body.take 160))) = .ok req)
    (hdo : w.Do (SendRequest req accountSID authToken) = .ok resp) :
    Send w from_ to_ body accountSID authToken =
      if resp.StatusCode ≥ 200 ∧ resp.StatusCode < 300 then
        some .nil
      else
        match w.Decode resp.Body with
        | .error e => some (Errorf "Unable to decode response body: " (.err e))
        | .ok respBody =>
          some (.err (lit "HTTP error " ++ verbD resp.StatusCode ++ lit ", "
            ++ verbS w (respBody.index (lit "message")) ++ lit " "
            ++ verbS w (respBody.index (lit "more_info")))) := by
  unfold Send
  simp only [SendBody_eq, hreq, hdo]

/-- C7.  Result classification of `Send`: once the request is built and a
response received, `Send` returns nil exactly when the status code is in
[200,300), whatever the body of the response; for any other status it returns
a non-nil error whatever the body, and when the body does not decode as JSON
that error is the decode failure. -/
theorem Send_classification (w : World) (from_ to_ body accountSID authToken : GoString)
    (req : Request) (resp : Response)
    (hreq : w.NewRequest (lit "POST") (w.Sprintf APIURL accountSID)
      (w.Encode (SendData from_ to_ (body.take 160))) = .ok req)
    (hdo : w.Do (SendRequest req accountSID authToken) = .ok resp) :
    (Send w from_ to_ body accountSID authToken = some .nil ↔
        200 ≤ resp.StatusCode ∧ resp.StatusCode < 300) ∧
      (¬ (200 ≤ resp.StatusCode ∧ resp.StatusCode < 300) →
        ∃ msg, Send w from_ to_ body accountSID authToken = some (.err msg)) ∧
      (∀ e, ¬ (200 ≤ resp.StatusCode ∧ resp.StatusCode < 300) →
        w.Decode resp.Body = .error e →
        Send w from_ to_ body accountSID authToken =
          some (.err (lit "Unable to decode response body: " ++ e))) := by
  rw [Send_of_response w from_ to_ body accountSID authToken req resp hreq hdo]
  by_cases hs : resp.StatusCode ≥ 200 ∧ resp.StatusCode < 300
  · refine ⟨?_, fun hn => absurd hs hn, fun e hn _ => absurd hs hn⟩
    simp only [if_pos hs, true_iff]
    exact hs
  · simp only [if_neg hs]
    refine ⟨?_, ?_, ?_⟩
    · constructor
      · intro h
        cases hd : w.Decode resp.Body <;> simp [hd, Errorf] at h
      · intro h
        exact absurd h hs
    · intro _
      cases hd : w.Decode resp.Body
      · exact ⟨_, rfl⟩
      · exact ⟨_, rfl⟩
    · intro e _ hd
      simp [hd, Errorf, GoError.verbV]

/-- The classification at the answers the specification names: status 201 is a success, and
status 500 with a body that is not JSON is the decode-failure error. -/
theorem Send_classification_witness :
    Send (sampleWorld (lit "") ⟨201, lit "created"⟩ (.error (lit "invalid character")) (lit ""))
        (lit "+15550001") (lit "+15550002") (lit "hello") (lit "AC1") (lit "secret") = some .nil ∧
      Send (sampleWorld (lit "") ⟨500, lit "oops"⟩ (.error (lit "invalid character")) (lit ""))
        (lit "+15550001") (lit "+15550002") (lit "hello") (lit "AC1") (lit "secret") =
        some (.err (lit "Unable to decode response body: invalid character")) := by
  constructor
  · exact (Send_classification
      (sampleWorld (lit "") ⟨201, lit "created"⟩ (.error (lit "invalid character")) (lit ""))
      (lit "+15550001") (lit "+15550002") (lit "hello") (lit "AC1") (lit "secret")
      _ ⟨201, lit "created"⟩ rfl rfl).1.mpr (by decide)
  · exact (Send_classification
      (sampleWorld (lit "") ⟨500, lit "oops"⟩ (.error (lit "invalid character")) (lit ""))
      (lit "+15550001") (lit "+15550002") (lit "hello") (lit "AC1") (lit "secret")
      _ ⟨500, lit "oops"⟩ rfl rfl).2.2 (lit "invalid character") (by decide) rfl

/-- C8.  The API-error diagnostic of `Send`: for a status code outside
[200,300) and a body that decodes as the JSON object `obj`, `Send` fails with
the text `HTTP error`, the decimal status code, a comma, and what `%s` prints
for the `message` and the `more_info` of the object; a field that is absent
or null is nil and prints as the bad-verb text for nil; when both are strings
the text contains the status code and both strings. -/
theorem Send_api_error (w : World) (from_ to_ body accountSID authToken : GoString)
    (req : Request) (resp : Response) (obj : JSONObject)
    (hreq : w.NewRequest (lit "POST") (w.Sprintf APIURL accountSID)
      (w.Encode (SendData from_ to_ (body.take 160))) = .ok req)
    (hdo : w.Do (SendRequest req accountSID authToken) = .ok resp)
    (hs : ¬ (200 ≤ resp.StatusCode ∧ resp.StatusCode < 300))
    (hdec : w.Decode resp.Body = .ok obj) :
    Send w from_ to_ body accountSID authToken =
        some (.err (lit "HTTP error " ++ verbD resp.StatusCode ++ lit ", "
          ++ verbS w (obj.index (lit "message")) ++ lit " "
          ++ verbS w (obj.index (lit "more_info")))) ∧
      (∀ key, obj.lookup key = none ∨ obj.lookup key = some .null →
        verbS w (obj.index key) = lit "%!s(<nil>)") ∧
      (∀ m i, obj.lookup (lit "message") = some (.string m) →
        obj.lookup (lit "more_info") = some (.string i) →
        Send w from_ to_ body accountSID authToken =
            some (.err (lit "HTTP error " ++ verbD resp.StatusCode ++ lit ", " ++ m ++ lit " " ++ i)) ∧
          verbD resp.StatusCode <:+:
            lit "HTTP error " ++ verbD resp.StatusCode ++ lit ", " ++ m ++ lit " " ++ i ∧
          m <:+: lit "HTTP error " ++ verbD resp.StatusCode ++ lit ", " ++ m ++ lit " " ++ i ∧
          i <:+: lit "HTTP error " ++ verbD resp.StatusCode ++ lit ", " ++ m ++ lit " " ++ i) := by
  have hsend := Send_of_response w from_ to_ body accountSID authToken req resp hreq hdo
  have hs2 : ¬ (resp.StatusCode ≥ 200 ∧ resp.StatusCode < 300) := hs
  simp only [if_neg hs2, hdec] at hsend
  refine ⟨hsend, ?_, ?_⟩
  · intro key hkey
    rcases hkey with hkey | hkey <;> simp [JSONObject.index, hkey, verbS]
  · intro m i hm hi
    have e1 : obj.index (lit "message") = .string m := by simp [JSONObject.index, hm]
    have e2 : obj.index (lit "more_info") = .string i := by simp [JSONObject.index, hi]
    rw [e1, e2] at hsend
    refine ⟨hsend, ?_, ?_, ?_⟩
    · exact ⟨lit "HTTP error ", lit ", " ++ m ++ lit " " ++ i, by simp [List.append_assoc]⟩
    · exact ⟨lit "HTTP error " ++ verbD resp.StatusCode ++ lit ", ", lit " " ++ i,
        by simp [List.append_assoc]⟩
    · exact ⟨lit "HTTP error " ++ verbD resp.StatusCode ++ lit ", " ++ m ++ lit " ", [],
        by simp [List.append_assoc]⟩

/-- The diagnostic at the answer the specification quotes: status 400 with the message
`Invalid 'To' Phone Number` and the info URL. -/
theorem Send_api_error_witness :
    Send (sampleWorld (lit "") ⟨400, lit "body"⟩ (.ok sampleErrorObject) (lit ""))
        (lit "+15550001") (lit "+15550002") (lit "hello") (lit "AC1") (lit "secret") =
      some (.err (lit
        "HTTP error 400, Invalid \x27To\x27 Phone Number https://provider/errors/21211")) := by
  exact ((Send_api_error
    (sampleWorld (lit "") ⟨400, lit "body"⟩ (.ok sampleErrorObject) (lit ""))
    (lit "+15550001") (lit "+15550002") (lit "hello") (lit "AC1") (lit "secret")
    _ ⟨400, lit "body"⟩ sampleErrorObject rfl rfl (by decide) rfl).2.2
    (lit "Invalid \x27To\x27 Phone Number") (lit "https://provider/errors/21211")
    rfl rfl).1

/-! ## `strings.TrimSpace` and `Shorten` -/

theorem spaceEncodings_ne_nil {w : GoString} (h : w ∈ spaceEncodings) : 0 < w.length := by
  have hall : ∀ x ∈ spaceEncodings, 0 < x.length := by decide
  exact hall w h

theorem leadingSpace_eq_none_iff (s : GoString) :
    leadingSpace s = none ↔ ¬ HasLeadingSpace s := by
  simp [leadingSpace, HasLeadingSpace, List.find?_eq_none]

theorem trailingSpace_eq_none_iff (s : GoString) :
    trailingSpace s = none ↔ ¬ HasTrailingSpace s := by
  simp [trailingSpace, HasTrailingSpace, List.find?_eq_none]

theorem trimLeft_no_leading (fuel : Nat) (s : GoString) (h : s.length ≤ fuel) :
    ¬ HasLeadingSpace (trimLeft fuel s) := by
  induction fuel generalizing s with
  | zero =>
    have hs : s = [] := List.length_eq_zero.mp (by omega)
    subst hs
    rintro ⟨w, hw, hp⟩
    have hpos := spaceEncodings_ne_nil hw
    have hle := hp.length_le
    simp only [trimLeft, List.length_nil] at hle
    omega
  | succ fuel ih =>
    unfold trimLeft
    cases hl : leadingSpace s with
    | none => exact (leadingSpace_eq_none_iff s).mp hl
    | some w =>
      have hw : w ∈ spaceEncodings := List.mem_of_find?_eq_some hl
      have := spaceEncodings_ne_nil hw
      apply ih
      simp only [List.length_drop]
      omega

theorem trimRight_no_trailing (fuel : Nat) (s : GoString) (h : s.length ≤ fuel) :
    ¬ HasTrailingSpace (trimRight fuel s) := by
  induction fuel generalizing s with
  | zero =>
    have hs : s = [] := List.length_eq_zero.mp (by omega)
    subst hs
    rintro ⟨w, hw, hp⟩
    have hpos := spaceEncodings_ne_nil hw
    have hle := hp.length_le
    simp only [trimRight, List.length_nil] at hle
    omega
  | succ fuel ih =>
    unfold trimRight
    cases hl : trailingSpace s with
    | none => exact (trailingSpace_eq_none_iff s).mp hl
    | some w =>
      have hw : w ∈ spaceEncodings := List.mem_of_find?_eq_some hl
      have := spaceEncodings_ne_nil hw
      apply ih
      simp only [List.length_take]
      omega

theorem trimRight_isPrefix (fuel : Nat) (s : GoString) : trimRight fuel s <+: s := by
  induction fuel generalizing s with
  | zero => exact List.prefix_refl s
  | succ fuel ih =>
    unfold trimRight
    cases hl : trailingSpace s with
    | none => exact List.prefix_refl s
    | some w => exact (ih _).trans (List.take_prefix _ s)

theorem trimLeft_isSuffix (fuel : Nat) (s : GoString) : trimLeft fuel s <:+ s := by
  induction fuel generalizing s with
  | zero => exact List.suffix_refl s
  | succ fuel ih =>
    unfold trimLeft
    cases hl : leadingSpace s with
    | none => exact List.suffix_refl s
    | some w => exact (ih _).trans (List.drop_suffix _ s)

/-- The result of `TrimSpace` is a slice of its argument. -/
theorem TrimSpace_isInfix (s : GoString) : TrimSpace s <:+: s :=
  (trimRight_isPrefix _ _).isInfix.trans (trimLeft_isSuffix _ s).isInfix

/-- The result of `TrimSpace` neither starts nor ends with a white-space rune. -/
theorem TrimSpace_no_space (s : GoString) :
    ¬ HasLeadingSpace (TrimSpace s) ∧ ¬ HasTrailingSpace (TrimSpace s) := by
  constructor
  · rintro ⟨w, hw, hp⟩
    exact trimLeft_no_leading s.length s (Nat.le_refl _)
      ⟨w, hw, hp.trans (trimRight_isPrefix _ _)⟩
  · exact trimRight_no_trailing _ _ (Nat.le_refl _)

/-- C9.  The result of `Shorten` once the GET succeeded and the body was read
as the text `t`: an error exactly when `t` stripped of leading and trailing
white space is empty, and otherwise the stripped text with a nil error; so
every successful result is non-empty and neither starts nor ends with white
space. -/
theorem Shorten_result (w : World) (shortenURL url t : GoString)
    (hget : w.Get (w.Sprintf shortenURL url) = .ok (.ok t)) :
    ((Shorten w shortenURL url).2 ≠ .nil ↔ TrimSpace t = lit "") ∧
      (TrimSpace t ≠ lit "" → Shorten w shortenURL url = (TrimSpace t, .nil)) ∧
      ((Shorten w shortenURL url).2 = .nil →
        (Shorten w shortenURL url).1 ≠ lit "" ∧
        ¬ HasLeadingSpace (Shorten w shortenURL url).1 ∧
        ¬ HasTrailingSpace (Shorten w shortenURL url).1) := by
  have hsh : Shorten w shortenURL url =
      if TrimSpace t = lit "" then (lit "", Errorf "Unable read response body: " .nil)
      else (TrimSpace t, .nil) := by
    simp only [Shorten, hget]
  rw [hsh]
  by_cases he : TrimSpace t = lit ""
  · simp [he, Errorf]
  · simp only [if_neg he]
    refine ⟨by simp [he], fun _ => trivial, fun _ => ⟨he, TrimSpace_no_space t⟩⟩

/-- The result of `Shorten` at a shortener that answers the short url between blanks and a line
end, and at one that answers only white space. -/
theorem Shorten_result_witness :
    Shorten (sampleWorld (lit " http://x.co/abc \r\n") ⟨201, lit ""⟩ (.ok []) (lit ""))
        (lit "https://short.example/?u=%s") (lit "https://example.com/a/long/path") =
        (lit "http://x.co/abc", .nil) ∧
      (Shorten (sampleWorld (lit " \t\n") ⟨201, lit ""⟩ (.ok []) (lit ""))
        (lit "https://short.example/?u=%s") (lit "https://example.com/a/long/path")).2 ≠ .nil := by
  constructor
  · exact (Shorten_result
      (sampleWorld (lit " http://x.co/abc \r\n") ⟨201, lit ""⟩ (.ok []) (lit ""))
      (lit "https://short.example/?u=%s") (lit "https://example.com/a/long/path")
      (lit " http://x.co/abc \r\n") rfl).2.1 (by decide)
  · exact (Shorten_result
      (sampleWorld (lit " \t\n") ⟨201, lit ""⟩ (.ok []) (lit ""))
      (lit "https://short.example/?u=%s") (lit "https://example.com/a/long/path")
      (lit " \t\n") rfl).1.mpr (by decide)

/-! ## `main` -/

/-- C10.  Configuration validation: when one of `from`, `to`, the account SID
or the auth token is empty, the run ends with exit status 1 after the usage
text and one error line, without reading standard input and without calling
`Shorten` or `Send`, whatever the url, the shortener and the world are. -/
theorem main_missing_config (w : World) (c : Config)
    (h : c.fromNumber = lit "" ∨ c.toNumber = lit "" ∨ c.accountSID = lit "" ∨
      c.authToken = lit "") :
    (main w c).exitCode = 1 ∧
      (∀ e ∈ (main w c).events, e.isNetworkCall = false) ∧
      ∃ line, (main w c).events = [.Usage, .Println line] := by
  unfold main
  by_cases h1 : c.fromNumber = lit ""
  · simp [h1, Event.isNetworkCall]
  · by_cases h2 : c.toNumber = lit ""
    · simp [h1, h2, Event.isNetworkCall]
    · by_cases h3 : c.accountSID = lit ""
      · simp [h1, h2, h3, Event.isNetworkCall]
      · have h4 : c.authToken = lit "" := by
          rcases h with h | h | h | h
          · exact absurd h h1
          · exact absurd h h2
          · exact absurd h h3
          · exact h
        simp [h1, h2, h3, h4, Event.isNetworkCall]

/-- The validation at a configuration in which only the auth token is missing, with a
url and a shortener set and text on standard input. -/
theorem main_missing_config_witness :
    (main (sampleWorld (lit "http://x.co/abc") ⟨201, lit ""⟩ (.ok []) (lit "hello"))
      ⟨lit "+15550001", lit "+15550002", lit "AC1", lit "",
        lit "https://short.example/?u=%s", lit "https://example.com/"⟩).exitCode = 1 ∧
    ∀ e ∈ (main (sampleWorld (lit "http://x.co/abc") ⟨201, lit ""⟩ (.ok []) (lit "hello"))
      ⟨lit "+15550001", lit "+15550002", lit "AC1", lit "",
        lit "https://short.example/?u=%s", lit "https://example.com/"⟩).events,
      e.isNetworkCall = false := by
  have h := main_missing_config
    (sampleWorld (lit "http://x.co/abc") ⟨201, lit ""⟩ (.ok []) (lit "hello"))
    ⟨lit "+15550001", lit "+15550002", lit "AC1", lit "",
      lit "https://short.example/?u=%s", lit "https://example.com/"⟩
    (Or.inr (Or.inr (Or.inr rfl)))
  exact ⟨h.1, h.2.1⟩

end TwilioSendSMS
